import Mathlib

/-!
Verification development for the AFK-Remover Discord bot.

The repository contains several near-duplicate revisions of the same bot.
The definitions below are shallow embeddings of the concrete functions of
those revisions:

* the merge-upsert `saveGuildConfig` / guarded `getGuildConfig` pair of the
  converged revision (src/unnamed/part_004 lines 34-85, identical second
  copy in src/unnamed/part_003 lines 457-538);
* the plain-overwrite `saveGuildConfig` of the first revision in
  src/unnamed/part_003 (lines 34-55) together with its ungated
  `interactionCreate` command handlers;
* the translation helper `t` (same body in every revision);
* the `voiceStateUpdate` handler of the first revision in
  src/unnamed/part_003 (lines 369-413);
* the `hasPermission` gate of the second revision inside src/index.js
  (lines 489-506) and its `setup` command branch.

JavaScript peculiarities that the claims hinge on are modelled explicitly:
`||` falsiness (undefined, null, the empty string and the number 0 are
falsy, every array is truthy), the distinction between `undefined` and
`null` when a value is bound into a prepared statement (better-sqlite3
binds only numbers, strings, bigints, buffers and null; binding
`undefined` or an array throws), `String.prototype.replace` with a string
pattern replacing only the first occurrence, and `JSON.parse` throwing on
malformed input.
-/

/-- Value of a JavaScript string-typed slot: `undefined`, `null`, or a
string.  Used for the string fields of a configuration object. -/
inductive JSv where
  | undef : JSv
  | nullv : JSv
  | str : String → JSv
deriving DecidableEq, Repr

/-- Value of a JavaScript number-typed slot: `undefined`, `null`, or a
number (integers suffice for every value the bot handles). -/
inductive JSNum where
  | undefN : JSNum
  | nullN : JSNum
  | numN : Int → JSNum
deriving DecidableEq, Repr

/-- JavaScript truthiness of a string slot: `undefined`, `null` and `""`
are falsy, every other string is truthy. -/
def truthyV : JSv → Bool
  | .str s => !(s == "")
  | _ => false

/-- JavaScript `a || b` on string slots. -/
def jsOrV (a b : JSv) : JSv := if truthyV a then a else b

/-- Conversion of a nullable database column value to the JavaScript value
the sqlite driver hands back (`NULL` becomes `null`, never `undefined`). -/
def jsvOfOpt : Option String → JSv
  | none => .nullv
  | some s => .str s

/-- JavaScript truthiness filter on an optional string (used for
`x ? ... : ...` and `x || y` where `x` came from a nullable column):
`null`/absent and `""` are falsy. -/
def jsTruthyStr : Option String → Option String
  | none => none
  | some s => if s = "" then none else some s

/-- A role reference object `{ id, name }` as stored in `allowed_roles`. -/
structure RoleRef where
  id : String
  name : String
deriving DecidableEq, Repr

/-- Escaping applied by `JSON.stringify` to the characters that can occur
in role ids and names: `"` and `\` are backslash-escaped. -/
def jsonEscape (s : String) : String :=
  String.mk (s.data.foldr
    (fun c acc => if c = '"' || c = '\\' then '\\' :: c :: acc else c :: acc) [])

/-- Serialization `JSON.stringify` produces for a list of role objects:
`[` , comma-separated `\x7b"id":"...","name":"..."\x7d` objects, `]`. -/
def rolesToJson (rs : List RoleRef) : String :=
  "[" ++ String.intercalate ","
    (rs.map fun r =>
      "\x7b\"id\":\"" ++ jsonEscape r.id ++ "\",\"name\":\"" ++ jsonEscape r.name ++ "\"\x7d")
    ++ "]"

/-- Reads a JSON string body up to the closing quote, undoing the two
escapes `jsonEscape` produces; any other escape or a missing closing quote
is a parse error. -/
def parseStrAux : List Char → List Char → Option (String × List Char)
  | [], _ => none
  | '\\' :: c :: rest, acc =>
    if c = '"' || c = '\\' then parseStrAux rest (c :: acc) else none
  | '"' :: rest, acc => some (String.mk acc.reverse, rest)
  | c :: rest, acc => parseStrAux rest (c :: acc)

/-- Consumes an expected literal from the input or fails. -/
def expectLit (lit cs : List Char) : Option (List Char) :=
  if lit.isPrefixOf cs then some (cs.drop lit.length) else none

/-- Parses one serialized role object `\x7b"id":"...","name":"..."\x7d`. -/
def parseObject (cs : List Char) : Option (RoleRef × List Char) := do
  let cs1 ← expectLit "\x7b\"id\":\"".data cs
  let (idv, cs2) ← parseStrAux cs1 []
  let cs3 ← expectLit ",\"name\":\"".data cs2
  let (namev, cs4) ← parseStrAux cs3 []
  let cs5 ← expectLit "\x7d".data cs4
  pure (⟨idv, namev⟩, cs5)

/-- Parses the comma-separated role objects up to the closing `]`. -/
def parseItems : Nat → List Char → Option (List RoleRef × List Char)
  | 0, _ => none
  | fuel + 1, cs =>
    match parseObject cs with
    | none => none
    | some (r, rest) =>
      match rest with
      | ',' :: rest2 =>
        match parseItems fuel rest2 with
        | some (rs, rem) => some (r :: rs, rem)
        | none => none
      | ']' :: rest2 => some ([r], rest2)
      | _ => none

/-- Deserialization of an `allowed_roles` column: `JSON.parse` restricted
to the grammar `rolesToJson` emits.  `none` models `JSON.parse` throwing a
`SyntaxError` on malformed input. -/
def jsonParseRoles (s : String) : Option (List RoleRef) :=
  match s.data with
  | ['[', ']'] => some []
  | '[' :: rest =>
    match parseItems (rest.length + 1) rest with
    | some (rs, []) => some rs
    | _ => none
  | _ => none

/-- One row of the `guilds` table (schema of part_003/part_004:
`guild_id` primary key plus six nullable columns). -/
structure Row where
  server_name : Option String
  afk_channel_id : Option String
  afk_channel_name : Option String
  allowed_roles : Option String
  language : Option String
  afk_timeout : Option Int
deriving DecidableEq, Repr

/-- The `guilds` table, keyed by guild id. -/
def Store := String → Option Row

/-- The record `getGuildConfig` returns for an existing row. -/
structure GuildCfg where
  serverName : Option String
  afkChannelId : Option String
  afkChannelName : Option String
  allowedRoles : List RoleRef
  language : Option String
  afkTimeout : Option Int
deriving DecidableEq, Repr

/-- Embedding of `getGuildConfig` (part_004 lines 71-85, same body in
part_003 lines 57-72): returns `null` for a missing row, decodes
`allowed_roles` with `row.allowed_roles ? JSON.parse(row.allowed_roles) : []`
(so `NULL` and `""` give `[]`), and `.error` models the `JSON.parse`
exception escaping on a malformed non-empty column. -/
def getGuildConfigE (st : Store) (g : String) : Except Unit (Option GuildCfg) :=
  match st g with
  | none => .ok none
  | some row =>
    match jsTruthyStr row.allowed_roles with
    | none =>
      .ok (some ⟨row.server_name, row.afk_channel_id, row.afk_channel_name,
                 [], row.language, row.afk_timeout⟩)
    | some s =>
      match jsonParseRoles s with
      | none => .error ()
      | some rs =>
        .ok (some ⟨row.server_name, row.afk_channel_id, row.afk_channel_name,
                   rs, row.language, row.afk_timeout⟩)

example : jsonParseRoles (rolesToJson []) = some [] := by decide
example : jsonParseRoles (rolesToJson [⟨"r1", "Mods"⟩]) = some [⟨"r1", "Mods"⟩] := by decide
example : jsonParseRoles "hello" = none := by decide

/-- A JavaScript partial configuration object as passed to the merge
`saveGuildConfig`: each field is `undefined` (omitted), `null`, or a value
of its schema type; `allowedRoles`, when present, is an array of role
objects (`none` covers both `undefined` and `null`, which the code treats
identically through the `config.allowedRoles ? ... : ...` ternary). -/
structure ConfigIn where
  serverName : JSv
  afkChannelId : JSv
  afkChannelName : JSv
  allowedRoles : Option (List RoleRef)
  language : JSv
  afkTimeout : JSNum
deriving DecidableEq, Repr

/-- The value the merge computes for the `allowedRoles` slot before it is
bound: a serialized string (incoming array re-stringified), the raw parsed
array taken over from `existingConfig.allowedRoles`, or `undefined` when
neither side has a value. -/
inductive MergedRoles where
  | strR : String → MergedRoles
  | arrR : List RoleRef → MergedRoles
  | undefR : MergedRoles
deriving DecidableEq, Repr

/-- The six merged slot values `updatedConfig` holds in the merge
`saveGuildConfig` (part_004 lines 38-51). -/
structure Merged where
  serverName : JSv
  afkChannelId : JSv
  afkChannelName : JSv
  allowedRoles : MergedRoles
  language : JSv
  afkTimeout : JSNum
deriving DecidableEq, Repr

/-- Embedding of the `updatedConfig` computation of the merge
`saveGuildConfig`: `config.f || existingConfig.f` for the string fields,
`config.language || existingConfig.language || "en_us"`,
`config.allowedRoles ? JSON.stringify(config.allowedRoles) :
existingConfig.allowedRoles` and
`config.afkTimeout !== undefined ? config.afkTimeout :
existingConfig.afkTimeout || 5`. -/
def mergeCfg (ex : Option GuildCfg) (cfg : ConfigIn) : Merged :=
  let exSn := match ex with | some e => jsvOfOpt e.serverName | none => .undef
  let exAci := match ex with | some e => jsvOfOpt e.afkChannelId | none => .undef
  let exAcn := match ex with | some e => jsvOfOpt e.afkChannelName | none => .undef
  let exLang := match ex with | some e => jsvOfOpt e.language | none => .undef
  let exTm : Option Int := match ex with | some e => e.afkTimeout | none => none
  { serverName := jsOrV cfg.serverName exSn
    afkChannelId := jsOrV cfg.afkChannelId exAci
    afkChannelName := jsOrV cfg.afkChannelName exAcn
    allowedRoles :=
      match cfg.allowedRoles with
      | some rs => .strR (rolesToJson rs)
      | none => match ex with | some e => .arrR e.allowedRoles | none => .undefR
    language := jsOrV cfg.language (jsOrV exLang (.str "en_us"))
    afkTimeout :=
      match cfg.afkTimeout with
      | .numN n => .numN n
      | .nullN => .nullN
      | .undefN => .numN (match exTm with | some m => if m = 0 then 5 else m | none => 5) }

/-- The parameter values actually bound into the prepared statement. -/
structure Bound where
  serverName : Option String
  afkChannelId : Option String
  afkChannelName : Option String
  allowedRoles : Option String
  language : Option String
  afkTimeout : Option Int
deriving DecidableEq, Repr

/-- Binding of a string slot by better-sqlite3: `null` binds as SQL NULL,
a string binds as itself, and binding `undefined` throws (the driver binds
only numbers, strings, bigints, buffers and null). -/
def bindStr : JSv → Except Unit (Option String)
  | .undef => .error ()
  | .nullv => .ok none
  | .str s => .ok (some s)

/-- Binding of a number slot by better-sqlite3 (same rules). -/
def bindNum : JSNum → Except Unit (Option Int)
  | .undefN => .error ()
  | .nullN => .ok none
  | .numN n => .ok (some n)

/-- Binding of the `allowedRoles` slot: only the serialized-string case is
bindable; a raw array or `undefined` makes the driver throw. -/
def bindRoles : MergedRoles → Except Unit (Option String)
  | .strR s => .ok (some s)
  | _ => .error ()

/-- Binds all six slots of the merged configuration; any unbindable slot
aborts the statement. -/
def bindMerged (m : Merged) : Except Unit Bound :=
  match bindStr m.serverName, bindStr m.afkChannelId, bindStr m.afkChannelName,
        bindRoles m.allowedRoles, bindStr m.language, bindNum m.afkTimeout with
  | .ok a, .ok b, .ok c, .ok d, .ok e, .ok f => .ok ⟨a, b, c, d, e, f⟩
  | _, _, _, _, _, _ => .error ()

/-- SQL `NULLIF(x, '')` on a nullable text value. -/
def nullifEmpty : Option String → Option String
  | some s => if s = "" then none else some s
  | x => x

/-- SQL `COALESCE(a, b)`. -/
def coalesce : Option α → Option α → Option α
  | some a, _ => some a
  | none, b => b

/-- The `ON CONFLICT ... DO UPDATE` clause of the merge `saveGuildConfig`:
each text column becomes `COALESCE(NULLIF(@v, ''), guilds.col)` and
`afk_timeout` becomes `COALESCE(@afkTimeout, guilds.afk_timeout)`. -/
def updateRow (old : Row) (b : Bound) : Row :=
  ⟨coalesce (nullifEmpty b.serverName) old.server_name,
   coalesce (nullifEmpty b.afkChannelId) old.afk_channel_id,
   coalesce (nullifEmpty b.afkChannelName) old.afk_channel_name,
   coalesce (nullifEmpty b.allowedRoles) old.allowed_roles,
   coalesce (nullifEmpty b.language) old.language,
   coalesce b.afkTimeout old.afk_timeout⟩

/-- The `INSERT ... ON CONFLICT(guild_id) DO UPDATE` statement: a fresh
row stores the bound values, an existing row is updated per `updateRow`. -/
def upsertRow (st : Store) (g : String) (b : Bound) : Store :=
  fun x =>
    if x = g then
      some (match st g with
            | none => ⟨b.serverName, b.afkChannelId, b.afkChannelName,
                       b.allowedRoles, b.language, b.afkTimeout⟩
            | some old => updateRow old b)
    else st x

/-- Embedding of the merge `saveGuildConfig` (part_004 lines 34-68,
part_003 lines 457-491): reads the existing record (whose `JSON.parse`
may throw), merges, binds, and runs the upsert; `.error` is any exception
escaping the call, which leaves the table untouched. -/
def saveGuildConfigE (st : Store) (g : String) (cfg : ConfigIn) : Except Unit Store :=
  match getGuildConfigE st g with
  | .error e => .error e
  | .ok ex =>
    match bindMerged (mergeCfg ex cfg) with
    | .error e => .error e
    | .ok b => .ok (upsertRow st g b)

/-- State transformer view of a `saveGuildConfig` call: an exception
leaves the stored table unchanged. -/
def runSave (st : Store) (g : String) (cfg : ConfigIn) : Store :=
  match saveGuildConfigE st g cfg with
  | .ok st' => st'
  | .error _ => st

/-- The column names of a guild row, for stating per-field properties. -/
inductive CField where
  | serverName | afkChannelId | afkChannelName | allowedRoles | language | afkTimeout
deriving DecidableEq, Repr

/-- A dynamically typed SQLite cell value. -/
inductive Cell where
  | nullC : Cell
  | strC : String → Cell
  | intC : Int → Cell
deriving DecidableEq, Repr

/-- The cell a row holds in a given column. -/
def rowCell (r : Row) : CField → Cell
  | .serverName => match r.server_name with | none => .nullC | some s => .strC s
  | .afkChannelId => match r.afk_channel_id with | none => .nullC | some s => .strC s
  | .afkChannelName => match r.afk_channel_name with | none => .nullC | some s => .strC s
  | .allowedRoles => match r.allowed_roles with | none => .nullC | some s => .strC s
  | .language => match r.language with | none => .nullC | some s => .strC s
  | .afkTimeout => match r.afk_timeout with | none => .nullC | some n => .intC n

/-- The cell stored for guild `g` in a column (`none` when no row). -/
def cellAt (st : Store) (g : String) (f : CField) : Option Cell :=
  (st g).map (fun r => rowCell r f)

/-- Whether a partial update leaves a field `undefined`/omitted. -/
def fieldAbsent (c : ConfigIn) : CField → Bool
  | .serverName => c.serverName == .undef
  | .afkChannelId => c.afkChannelId == .undef
  | .afkChannelName => c.afkChannelName == .undef
  | .allowedRoles => c.allowedRoles == none
  | .language => c.language == .undef
  | .afkTimeout => c.afkTimeout == .undefN

/-- A loaded message bundle: key to template string. -/
abbrev Bundle := List (String × String)

/-- The `translations` object: language code to bundle. -/
abbrev Translations := List (String × Bundle)

/-- Property access on a string-keyed object. -/
def jsLookup (m : List (String × α)) (k : String) : Option α :=
  (m.find? (fun p => p.fst = k)).map Prod.snd

/-- The optional chain `translations[lang]?.[key]`. -/
def bundleText (tr : Translations) (lang key : String) : Option String :=
  match jsLookup tr lang with
  | none => none
  | some b => jsLookup b key

/-- The lookup chain of the translation helper `t` (part_004 line 107):
`translations[lang]?.[key] || translations["en_us"]?.[key] || key`,
with JavaScript falsiness (`undefined` and `""` fall through). -/
def pickText (tr : Translations) (lang key : String) : String :=
  match jsTruthyStr (bundleText tr lang key) with
  | some s => s
  | none =>
    match jsTruthyStr (bundleText tr "en_us" key) with
    | some s => s
    | none => key

/-- Splits a character list at the first occurrence of a pattern,
returning the part before the match and the part after it. -/
def firstSplit (s pat : List Char) : Option (List Char × List Char) :=
  if pat.isPrefixOf s then some ([], s.drop pat.length)
  else
    match s with
    | [] => none
    | c :: cs =>
      match firstSplit cs pat with
      | some (before, after) => some (c :: before, after)
      | none => none

/-- `String.prototype.replace` with a string pattern: replaces only the
first occurrence of the pattern, or returns the string unchanged when the
pattern does not occur. -/
def jsReplaceFirst (s pat rep : String) : String :=
  match firstSplit s.data pat.data with
  | none => s
  | some (before, after) => String.mk (before ++ rep.data ++ after)

/-- The placeholder loop of `t`: for each `[placeholder, value]` entry,
`text = text.replace("\x7b" + placeholder + "\x7d", value)`. -/
def substPlaceholders (ps : List (String × String)) (text : String) : String :=
  ps.foldl (fun acc p => jsReplaceFirst acc ("\x7b" ++ p.fst ++ "\x7d") p.snd) text

/-- The body of the translation helper `t` (part_004 lines 105-114) after
the language code has been computed from the guild configuration: lookup
chain followed by the placeholder replacement loop. -/
def tResolve (tr : Translations) (lang key : String) (ps : List (String × String)) : String :=
  substPlaceholders ps (pickText tr lang key)

example : tResolve [("en_us", [("k", "hello \x7bwho\x7d")])] "en_us" "k" [("who", "you")]
    = "hello you" := by decide
example : tResolve [] "pt_br" "missing_key" [] = "missing_key" := by decide

/-- A member's voice state as delivered in a `voiceStateUpdate` payload. -/
structure VState where
  channelId : Option String
  selfMute : Bool
  selfDeaf : Bool
deriving DecidableEq, Repr

/-- Platform actions the handler issues. -/
inductive BotAct where
  | disconnect : String → BotAct
  | setChannel : String → String → BotAct
deriving DecidableEq, Repr

/-- A live `setTimeout` armed by the handler.  The channel the member was
in, the target AFK channel and the delay are captured in the callback's
closure at arm time and are not re-read when the timer fires. -/
structure PendingTimer where
  memberId : String
  guildId : String
  armedChannel : String
  afkChannel : String
  delayMs : Int
  armedAt : Nat
deriving DecidableEq, Repr

/-- The world state the `voiceStateUpdate` handler observes and mutates:
the config table, the current voice state of each member, the set of
outstanding timers, the log of issued actions, the bot's own user id and
whether the bot holds the MoveMembers permission in the AFK channel. -/
structure Sys where
  store : Store
  voice : String → VState
  timers : List PendingTimer
  actions : List BotAct
  botId : String
  canMoveMembers : Bool

/-- Embedding of the body of the `voiceStateUpdate` handler of part_003
(lines 369-413) once the guild configuration has been read: the
`!guildConfig.afkChannelId` guard, the AFK-channel disconnect branch
(skipping the bot itself and, without the MoveMembers permission,
returning before the disconnect), and the arming branch that starts a
timer of `guildConfig.afkTimeout * 60 * 1000` milliseconds when the
member sits self-muted and self-deafened in a non-AFK voice channel.
Returns the issued actions and the timer armed, if any. -/
def vsuHandler (cfg : GuildCfg) (botId : String) (canMove : Bool)
    (g m : String) (vs : VState) (now : Nat) : List BotAct × Option PendingTimer :=
  match jsTruthyStr cfg.afkChannelId with
  | none => ([], none)
  | some afkId =>
    -- JavaScript coerces a NULL timeout to 0 in the multiplication
    let delayMs : Int := (match cfg.afkTimeout with | some n => n | none => 0) * 60 * 1000
    if vs.channelId = some afkId then
      if m = botId then ([], none)
      else if canMove then ([BotAct.disconnect m], none)
      else ([], none)
    else
      match vs.channelId with
      | none => ([], none)
      | some ch =>
        if vs.selfMute && vs.selfDeaf then ([], some ⟨m, g, ch, afkId, delayMs, now⟩)
        else ([], none)

/-- The `setTimeout` callback's re-verification (part_003 lines 400-412):
the member must still be in the channel the timer was armed in and still
be self-muted and self-deafened. -/
def fireCheck (sys : Sys) (t : PendingTimer) : Bool :=
  let cur := sys.voice t.memberId
  cur.channelId == some t.armedChannel && cur.selfMute && cur.selfDeaf

/-- Events driving the handler: a voice-state update for a member (the
platform updates the member's cached voice state, then the handler runs)
and the expiry of an armed timer. -/
inductive Ev where
  | vsu : String → String → VState → Nat → Ev
  | fire : PendingTimer → Nat → Ev
deriving DecidableEq, Repr

/-- One event step.  A `vsu` event updates the member's voice state and
runs the handler (the surrounding `try/catch` swallows a `getGuildConfig`
exception, and a missing or AFK-channel-less configuration returns
early); no existing timer is ever cancelled.  A `fire` event removes the
expired timer and, if the re-verification passes, issues the
`setChannel` relocation to the AFK channel captured at arm time. -/
def step (sys : Sys) (e : Ev) : Sys :=
  match e with
  | .vsu g m vs now =>
    let sys' : Sys := { sys with voice := fun x => if x = m then vs else sys.voice x }
    match getGuildConfigE sys'.store g with
    | .error _ => sys'
    | .ok none => sys'
    | .ok (some cfg) =>
      let r := vsuHandler cfg sys'.botId sys'.canMoveMembers g m vs now
      { sys' with
        actions := sys'.actions ++ r.fst
        timers := sys'.timers ++ (match r.snd with | some t => [t] | none => []) }
  | .fire t _now =>
    if t ∈ sys.timers then
      let sys' : Sys := { sys with timers := sys.timers.erase t }
      if fireCheck sys' t then
        { sys' with actions := sys'.actions ++ [BotAct.setChannel t.memberId t.afkChannel] }
      else sys'
    else sys

/-- A guild member as seen by the command handlers: id, whether
`member.permissions.has(Administrator)` holds, and the member's role ids. -/
structure Member where
  id : String
  isAdmin : Bool
  roleIds : List String
deriving DecidableEq, Repr

/-- Embedding of the plain-overwrite `saveGuildConfig` of the first
revision in part_003 (lines 34-55): every column is set to the incoming
value, with `allowed_roles` set to `JSON.stringify(config.allowedRoles)`;
there is no merge with the existing row. -/
def savePlain (st : Store) (g : String) (cfg : GuildCfg) : Store :=
  fun x =>
    if x = g then
      some ⟨cfg.serverName, cfg.afkChannelId, cfg.afkChannelName,
            some (rolesToJson cfg.allowedRoles), cfg.language, cfg.afkTimeout⟩
    else st x

/-- JavaScript `parseInt(s, 10)`: leading decimal digits (with optional
sign) after any leading whitespace, `none` for `NaN`. -/
def parseIntJS (s : String) : Option Int :=
  let cs := s.data.dropWhile (fun c => c.isWhitespace)
  let (neg, ds) := match cs with
    | '-' :: rest => (true, rest)
    | '+' :: rest => (false, rest)
    | rest => (false, rest)
  let digits := ds.takeWhile (fun c => c.isDigit)
  if digits = [] then none
  else
    let n : Nat := digits.foldl (fun acc c => acc * 10 + (c.toNat - '0'.toNat)) 0
    some (if neg then -(n : Int) else (n : Int))

/-- Embedding of the `/afklimit` branch of the first revision's
`interactionCreate` handler in part_003: no authorization check is
performed on the acting member; the handler reads the existing
configuration, overwrites `afkTimeout` with the parsed option and calls
the plain `saveGuildConfig`.  With no stored record the
`getGuildConfig(guildId) || \x7b\x7d` fallback leaves every other named
parameter `undefined`, which the statement binding rejects (`.error`). -/
def afklimitPart3 (st : Store) (g : String) (_mem : Member) (timeoutStr : String) :
    Except Unit Store :=
  match getGuildConfigE st g with
  | .error e => .error e
  | .ok (some cfgGot) =>
    .ok (savePlain st g ⟨cfgGot.serverName, cfgGot.afkChannelId, cfgGot.afkChannelName,
                         cfgGot.allowedRoles, cfgGot.language, parseIntJS timeoutStr⟩)
  | .ok none => .error ()

/-- One row of the `server_configs` table of the second revision inside
src/index.js (columns other than the key and timestamp). -/
structure Row2 where
  server_name : Option String
  afk_channel_id : Option String
  afk_channel_name : Option String
  allowed_roles : Option String
  language : Option String
deriving DecidableEq, Repr

/-- The `server_configs` table of that revision. -/
def Store2 := String → Option Row2

/-- The raw sqlite row object returned by `getServerConfig` exposes its
columns under their snake_case names; the code reads
`serverConfig.allowedRoles`, a key the object does not have, so the
access always yields `undefined`. -/
def rowAllowedRolesCamel (_ : Row2) : Option String := none

/-- Embedding of `hasPermission` (src/index.js lines 489-506): `false`
with no stored record, `true` for a platform administrator, otherwise
membership in `JSON.parse(serverConfig.allowedRoles || "[]")` — which,
because of the snake_case/camelCase mismatch, always parses `"[]"` and
yields the empty list.  (`JSON.parse("[]")` cannot throw; the `none`
branch of the parse is unreachable.) -/
def hasPermission (st : Store2) (g : String) (mem : Member) : Bool :=
  match st g with
  | none => false
  | some row =>
    if mem.isAdmin then true
    else
      let rolesJson := (jsTruthyStr (rowAllowedRolesCamel row)).getD "[]"
      match jsonParseRoles rolesJson with
      | some rs => rs.any (fun role => mem.roleIds.contains role.id)
      | none => false

/-- A guild channel as seen through `guild.channels.cache`. -/
structure Channel where
  id : String
  name : String
  ctype : Nat
deriving DecidableEq, Repr

/-- A guild role as seen through `guild.roles.cache`. -/
structure Role2 where
  id : String
  name : String
  isAdmin : Bool
  managed : Bool
deriving DecidableEq, Repr

/-- The parts of the interaction's guild object the `setup` branch reads. -/
structure GuildCtx where
  gid : String
  gname : String
  channels : List Channel
  roles : List Role2
deriving Repr

/-- The voice-channel lookup of the `setup` branch: a channel of type 2
whose name matches case-insensitively or whose id matches exactly. -/
def findVoiceChannel2 (ctx : GuildCtx) (input : String) : Option Channel :=
  ctx.channels.find? (fun ch =>
    ch.ctype == 2 && (ch.name.toLower == input.toLower || ch.id == input))

/-- A role entry about to be serialized; each property can be `undefined`
(the `setup` branch maps plain role-name strings through
`role => (\x7b id: role.id, name: role.name \x7d)`, producing entries
whose properties are both `undefined`). -/
structure RoleEntry where
  id : Option String
  name : Option String
deriving DecidableEq, Repr

/-- `JSON.stringify` of one such entry: properties with `undefined`
values are dropped. -/
def entryJson (e : RoleEntry) : String :=
  "\x7b" ++ String.intercalate ","
    ((match e.id with
      | some i => ["\"id\":\"" ++ jsonEscape i ++ "\""]
      | none => []) ++
     (match e.name with
      | some n => ["\"name\":\"" ++ jsonEscape n ++ "\""]
      | none => [])) ++ "\x7d"

/-- `JSON.stringify` of the combined role-entry array. -/
def entriesJson (es : List RoleEntry) : String :=
  "[" ++ String.intercalate "," (es.map entryJson) ++ "]"

/-- Embedding of `saveServerConfig` of the index.js second revision: a
plain overwrite upsert of every column. -/
def saveServerConfig2 (st : Store2) (g : String) (sn aci acn : Option String)
    (rolesJson : String) (lang : Option String) : Store2 :=
  fun x => if x = g then some ⟨sn, aci, acn, some rolesJson, lang⟩ else st x

/-- The commands that revision registers. -/
inductive Cmd2 where
  | setup : String → String → String → Cmd2
  | afkinfo : Cmd2
deriving DecidableEq, Repr

/-- The reply the handler sends back. -/
inductive Reply2 where
  | noPermission
  | invalidChannel
  | setupSuccess : String → String → Reply2
  | noConfiguration
  | afkinfoReply
deriving DecidableEq, Repr

/-- Embedding of the `interactionCreate` handler of the index.js second
revision (lines 484-580): the `hasPermission` gate rejects the whole
interaction before any command dispatch, and the `setup` branch validates
the channel, collects the admin roles and the named extra roles (the
latter as bare strings, hence entries with `undefined` properties) and
overwrites the stored record. -/
def interactionRev2 (st : Store2) (ctx : GuildCtx) (mem : Member) (cmd : Cmd2) :
    Store2 × Reply2 :=
  if !hasPermission st ctx.gid mem then (st, .noPermission)
  else
    match cmd with
    | .setup channelInput rolesInput language =>
      match findVoiceChannel2 ctx channelInput with
      | none => (st, .invalidChannel)
      | some ch =>
        let extraRoles := ((rolesInput.splitOn ",").map String.trim).filter
          (fun r => ctx.roles.any (fun x => x.name.toLower == r.toLower))
        let adminRoles := ctx.roles.filter (fun r => r.isAdmin && !r.managed)
        let entries := adminRoles.map (fun r => RoleEntry.mk (some r.id) (some r.name))
          ++ extraRoles.map (fun _ => RoleEntry.mk none none)
        (saveServerConfig2 st ctx.gid (some ctx.gname) (some ch.id) (some ch.name)
          (entriesJson entries) (some language),
         .setupSuccess ch.name language.toUpper)
    | .afkinfo =>
      (st, match st ctx.gid with | none => .noConfiguration | some _ => .afkinfoReply)

/-! ## Helper lemmas -/

/-- A list is a `isPrefixOf` of itself followed by anything. -/
theorem isPrefixOf_append_self (l r : List Char) : l.isPrefixOf (l ++ r) = true := by
  induction l with
  | nil => simp [List.isPrefixOf]
  | cons a as ih => simp [List.isPrefixOf, ih]

/-- `jsReplaceFirst` on a string that starts with the pattern replaces
exactly that leading occurrence and leaves the remainder untouched. -/
theorem jsReplaceFirst_append (pat rest rep : String) :
    jsReplaceFirst (pat ++ rest) pat rep = rep ++ rest := by
  obtain ⟨pl⟩ := pat
  obtain ⟨tl⟩ := rest
  obtain ⟨rl⟩ := rep
  show jsReplaceFirst (String.mk (pl ++ tl)) (String.mk pl) (String.mk rl)
      = String.mk (rl ++ tl)
  unfold jsReplaceFirst firstSplit
  simp [isPrefixOf_append_self, List.drop_left]

/-! ## C2: localized-text resolution fallback -/

/-- C2: for a language with no loaded bundle, `t`'s lookup chain resolves
exactly as it does for the default `en_us` bundle, and a key absent from
the `en_us` bundle resolves to the key string itself; resolution is a
total function and never fails. -/
theorem t_fallback_to_default (tr : Translations) (lang key : String) :
    (jsLookup tr lang = none →
      tResolve tr lang key [] = tResolve tr "en_us" key []) ∧
    (bundleText tr "en_us" key = none →
      tResolve tr "en_us" key [] = key) := by
  constructor
  · intro h
    have hb : bundleText tr lang key = none := by simp [bundleText, h]
    show substPlaceholders [] (pickText tr lang key)
        = substPlaceholders [] (pickText tr "en_us" key)
    simp only [substPlaceholders, List.foldl]
    unfold pickText
    rw [hb]
    cases hx : jsTruthyStr (bundleText tr "en_us" key) <;> simp [jsTruthyStr]
  · intro h
    show substPlaceholders [] (pickText tr "en_us" key) = key
    simp only [substPlaceholders, List.foldl]
    unfold pickText
    rw [h]
    rfl

/-- Concrete translations table used to instantiate the C2 theorem. -/
def trW : Translations := [("en_us", [("greet", "hi")])]

/-- Witness for `t_fallback_to_default`: a language with no bundle falls
back to `en_us`, and a key missing from `en_us` resolves to itself. -/
theorem t_fallback_to_default_witness :
    (tResolve trW "pt_br" "greet" [] = tResolve trW "en_us" "greet" []) ∧
    (tResolve trW "en_us" "missing_key" [] = "missing_key") :=
  ⟨(t_fallback_to_default trW "pt_br" "greet").1 (by decide),
   (t_fallback_to_default trW "en_us" "missing_key").2 (by decide)⟩

/-! ## C3: placeholder substitution and repeated tokens -/

/-- Translations table whose template repeats the same placeholder. -/
def trRep : Translations := [("en_us", [("k", "\x7ba\x7d and \x7ba\x7d")])]

/-- C3 counterexample: with the template `\x7ba\x7d and \x7ba\x7d` and the
binding `a := "x"`, the helper produces `"x and \x7ba\x7d"` — only the
first occurrence is substituted, refuting the claim that every occurrence
is replaced. -/
theorem t_repeated_token_counterexample :
    tResolve trRep "en_us" "k" [("a", "x")] = "x and \x7ba\x7d" ∧
    tResolve trRep "en_us" "k" [("a", "x")] ≠ "x and x" := by
  constructor
  · decide
  · decide

/-- C3 amended: `t` substitutes only the first occurrence of each
placeholder token (JavaScript `String.prototype.replace` with a string
pattern): when the resolved template starts with the token, the result is
the value followed by the untouched remainder, later occurrences
included. -/
theorem t_substitutes_first_occurrence (tr : Translations) (lang key n v rest : String)
    (h : pickText tr lang key = "\x7b" ++ n ++ "\x7d" ++ rest) :
    tResolve tr lang key [(n, v)] = v ++ rest := by
  show substPlaceholders [(n, v)] (pickText tr lang key) = v ++ rest
  rw [h]
  simp only [substPlaceholders, List.foldl]
  exact jsReplaceFirst_append ("\x7b" ++ n ++ "\x7d") rest v

/-- Witness for `t_substitutes_first_occurrence` on the repeated-token
template. -/
theorem t_substitutes_first_occurrence_witness :
    tResolve trRep "en_us" "k" [("a", "x")] = "x" ++ " and \x7ba\x7d" :=
  t_substitutes_first_occurrence trRep "en_us" "k" "a" "x" " and \x7ba\x7d" (by decide)

/-! ## C8: defensive decoding on read -/

/-- A stored row whose `allowed_roles` column holds a malformed
serialization. -/
def rowBad : Row := ⟨some "S", none, none, some "hello", some "en_us", some 5⟩

/-- Store holding the malformed row. -/
def stBadRoles : Store := fun g => if g = "g1" then some rowBad else none

/-- C8 counterexample: reading a row whose `allowed_roles` column fails to
deserialize makes `getGuildConfig` raise (the `JSON.parse` exception
escapes) instead of returning the record with an empty role collection. -/
theorem getGuildConfig_throws_on_malformed :
    getGuildConfigE stBadRoles "g1" = .error () := rfl

/-- Reduction of `getGuildConfigE` on an existing row. -/
theorem getGuildConfigE_some (st : Store) (g : String) (row : Row)
    (hrow : st g = some row) :
    getGuildConfigE st g =
      match jsTruthyStr row.allowed_roles with
      | none => .ok (some ⟨row.server_name, row.afk_channel_id,
                           row.afk_channel_name, [], row.language, row.afk_timeout⟩)
      | some s =>
        match jsonParseRoles s with
        | none => .error ()
        | some rs => .ok (some ⟨row.server_name, row.afk_channel_id,
                                row.afk_channel_name, rs, row.language, row.afk_timeout⟩) := by
  unfold getGuildConfigE
  rw [hrow]

/-- C8 amended: `getGuildConfig` treats only an absent (`NULL`) or empty
`allowed_roles` column as an empty collection; a malformed non-empty
serialization makes the read raise, and no read failure is converted to
"record absent". -/
theorem getGuildConfig_decoding (st : Store) (g : String) (row : Row)
    (hrow : st g = some row) :
    (row.allowed_roles = none ∨ row.allowed_roles = some "" →
      getGuildConfigE st g = .ok (some ⟨row.server_name, row.afk_channel_id,
        row.afk_channel_name, [], row.language, row.afk_timeout⟩)) ∧
    (∀ s, row.allowed_roles = some s → s ≠ "" → jsonParseRoles s = none →
      getGuildConfigE st g = .error ()) := by
  rw [getGuildConfigE_some st g row hrow]
  constructor
  · intro h
    rcases h with h | h <;> rw [h] <;> simp [jsTruthyStr]
  · intro s hs hne hp
    rw [hs]
    simp [jsTruthyStr, hne, hp]

/-- A stored row whose `allowed_roles` column is `NULL`. -/
def rowNullRoles : Row := ⟨some "S", none, none, none, some "en_us", some 5⟩

/-- Store holding the `NULL`-roles row. -/
def stNullRoles : Store := fun g => if g = "g2" then some rowNullRoles else none

/-- Witness for `getGuildConfig_decoding`: the `NULL` column decodes to an
empty collection, the malformed column raises. -/
theorem getGuildConfig_decoding_witness :
    getGuildConfigE stNullRoles "g2"
      = .ok (some ⟨some "S", none, none, [], some "en_us", some 5⟩) ∧
    getGuildConfigE stBadRoles "g1" = .error () :=
  ⟨(getGuildConfig_decoding stNullRoles "g2" rowNullRoles rfl).1 (Or.inl rfl),
   (getGuildConfig_decoding stBadRoles "g1" rowBad rfl).2 "hello" rfl (by decide) (by decide)⟩

/-! ## Concrete system used by the voice-state claims -/

/-- A configured guild row: AFK channel `afk`, timeout 5 minutes, empty
role list, English. -/
def rowG : Row := ⟨some "S", some "afk", some "AFK", some "[]", some "en_us", some 5⟩

/-- Store holding `rowG` for guild `g`. -/
def stG : Store := fun g => if g = "g" then some rowG else none

/-- Everyone starts outside voice. -/
def vsIdle : VState := ⟨none, false, false⟩

/-- Initial system: configured guild, no timers, no actions, bot has the
MoveMembers permission. -/
def sys0 : Sys := ⟨stG, fun _ => vsIdle, [], [], "bot", true⟩

/-- Member `m` self-mutes and self-deafens in channel `c1` at t=0. -/
def evArm1 : Ev := .vsu "g" "m" ⟨some "c1", true, true⟩ 0

/-- Member `m` unmutes (still deafened) at t=100, well before the
300000 ms deadline. -/
def evUnmute : Ev := .vsu "g" "m" ⟨some "c1", false, true⟩ 100

/-- Member `m` re-mutes at t=200. -/
def evRearm : Ev := .vsu "g" "m" ⟨some "c1", true, true⟩ 200

/-- The timer armed by `evArm1` expires at its 300000 ms deadline. -/
def evFire : Ev := .fire ⟨"m", "g", "c1", "afk", 300000, 0⟩ 300000

/-! ## C4: one-timer-per-member invariant -/

/-- C4 counterexample: after arming at t=0, unmuting at t=100 and
re-muting at t=200, member `m` has two outstanding relocation timers —
the voice-state update that re-armed did not cancel or replace the prior
timer, refuting the at-most-one-timer invariant. -/
theorem timers_stack_counterexample :
    (List.foldl step sys0 [evArm1, evUnmute, evRearm]).timers =
      [⟨"m", "g", "c1", "afk", 300000, 0⟩, ⟨"m", "g", "c1", "afk", 300000, 200⟩] := by
  rfl

/-- C4 amended: a voice-state update never cancels an outstanding timer;
it appends at most one newly armed timer, so re-arming stacks timers for
the same member and stale timers are neutralized only by the fire-time
re-verification. -/
theorem vsu_arms_without_cancelling (sys : Sys) (g m : String) (vs : VState) (now : Nat) :
    ∃ ts : List PendingTimer,
      (step sys (.vsu g m vs now)).timers = sys.timers ++ ts ∧ ts.length ≤ 1 := by
  simp only [step]
  cases hr : getGuildConfigE sys.store g with
  | error e => exact ⟨[], by simp, by simp⟩
  | ok o =>
    match o with
    | none => exact ⟨[], by simp, by simp⟩
    | some cfg =>
      cases ht : (vsuHandler cfg sys.botId sys.canMoveMembers g m vs now).snd with
      | none => exact ⟨[], by simp [ht], by simp⟩
      | some t => exact ⟨[t], by simp [ht], by simp⟩

/-! ## C5: idle timer correctness -/

/-- The handler emits either no action or a single disconnect; it never
emits a relocation. -/
theorem vsuHandler_fst (cfg : GuildCfg) (b : String) (cm : Bool)
    (g m : String) (vs : VState) (now : Nat) :
    (vsuHandler cfg b cm g m vs now).fst = [] ∨
    (vsuHandler cfg b cm g m vs now).fst = [BotAct.disconnect m] := by
  unfold vsuHandler
  cases jsTruthyStr cfg.afkChannelId with
  | none => exact Or.inl rfl
  | some afkId =>
    by_cases h2 : vs.channelId = some afkId
    · simp only [h2, if_pos]
      by_cases h3 : m = b
      · simp [h3]
      · by_cases h4 : cm <;> simp [h3, h4]
    · simp only [if_neg h2]
      cases vs.channelId with
      | none => exact Or.inl rfl
      | some ch =>
        by_cases h5 : vs.selfMute && vs.selfDeaf <;> simp [h5]

/-- A voice-state update appends at most a disconnect to the action log. -/
theorem vsu_actions_shape (sys : Sys) (g m : String) (vs : VState) (now : Nat) :
    (step sys (.vsu g m vs now)).actions = sys.actions ∨
    ∃ m', (step sys (.vsu g m vs now)).actions = sys.actions ++ [BotAct.disconnect m'] := by
  simp only [step]
  cases hr : getGuildConfigE sys.store g with
  | error e => exact Or.inl rfl
  | ok o =>
    match o with
    | none => exact Or.inl rfl
    | some cfg =>
      rcases vsuHandler_fst cfg sys.botId sys.canMoveMembers g m vs now with h | h
      · exact Or.inl (by simp [h])
      · exact Or.inr ⟨m, by simp [h]⟩

/-- In a trace containing no timer expiry, no relocation action is ever
issued: any new action is a disconnect. -/
theorem no_fire_no_move (sys : Sys) (es : List Ev)
    (h : ∀ e ∈ es, ∀ t n, e ≠ Ev.fire t n) :
    ∀ a ∈ (List.foldl step sys es).actions,
      a ∈ sys.actions ∨ ∃ m', a = BotAct.disconnect m' := by
  induction es generalizing sys with
  | nil => exact fun a ha => Or.inl ha
  | cons e rest ih =>
    intro a ha
    cases e with
    | fire t n => exact absurd rfl (h (.fire t n) (by simp) t n)
    | vsu g m vs now =>
      have hrest : ∀ e ∈ rest, ∀ t n, e ≠ Ev.fire t n :=
        fun e he t n => h e (by simp [he]) t n
      rcases ih (step sys (.vsu g m vs now)) hrest a ha with h1 | h2
      · rcases vsu_actions_shape sys g m vs now with hs | ⟨m', hs⟩
        · exact Or.inl (hs ▸ h1)
        · rw [hs] at h1
          rcases List.mem_append.mp h1 with h1 | h1
          · exact Or.inl h1
          · exact Or.inr ⟨m', List.mem_singleton.mp h1⟩
      · exact Or.inr h2

/-- C5 amended: the pending relocation is never cancelled by a state
change; instead the decision is re-taken when the timer fires.  When an
outstanding timer expires, the member is relocated to the AFK channel
captured at arm time exactly when they are still in the channel the timer
was armed in and still self-muted and self-deafened; otherwise the expiry
issues nothing.  Before any timer fires, no event can relocate anyone. -/
theorem idle_timer_fire_reverification (sys : Sys) (t : PendingTimer) (tnow : Nat)
    (es : List Ev) :
    (t ∈ sys.timers → fireCheck sys t = true →
      (step sys (.fire t tnow)).actions
        = sys.actions ++ [BotAct.setChannel t.memberId t.afkChannel]) ∧
    (t ∈ sys.timers → fireCheck sys t = false →
      (step sys (.fire t tnow)).actions = sys.actions) ∧
    ((∀ e ∈ es, ∀ t' n, e ≠ Ev.fire t' n) →
      ∀ a ∈ (List.foldl step sys es).actions,
        a ∈ sys.actions ∨ ∃ m', a = BotAct.disconnect m') := by
  refine ⟨fun ht hc => ?_, fun ht hc => ?_, no_fire_no_move sys es⟩
  · simp only [step, if_pos ht]
    have : fireCheck { sys with timers := sys.timers.erase t } t = true := hc
    rw [this]
    simp
  · simp only [step, if_pos ht]
    have : fireCheck { sys with timers := sys.timers.erase t } t = false := hc
    rw [this]
    simp

/-- System with an armed timer and the member still muted and deafened in
the armed channel, used to instantiate the fire-time theorem. -/
def sysArmed : Sys :=
  ⟨stG, fun x => if x = "m" then ⟨some "c1", true, true⟩ else vsIdle,
   [⟨"m", "g", "c1", "afk", 300000, 0⟩], [], "bot", true⟩

/-- Witness for `idle_timer_fire_reverification`: the armed timer fires
with the member still muted and deafened in the armed channel, producing
the relocation. -/
theorem idle_timer_fire_reverification_witness :
    (step sysArmed (.fire ⟨"m", "g", "c1", "afk", 300000, 0⟩ 300000)).actions
      = sysArmed.actions ++ [BotAct.setChannel "m" "afk"] :=
  (idle_timer_fire_reverification sysArmed ⟨"m", "g", "c1", "afk", 300000, 0⟩ 300000 []).1
    (by decide) (by decide)

/-- C5 counterexample: member `m` arms a timer at t=0, unmutes at t=100
(well before the 300000 ms deadline), re-mutes at t=200, and when the
timer armed at t=0 fires at its deadline the member is still relocated —
the unmute before the deadline did not cancel the pending relocation,
refuting the claim that a member who unmutes at any point before the
deadline is never moved by that timer. -/
theorem unmute_before_deadline_still_moved :
    BotAct.setChannel "m" "afk"
      ∈ (List.foldl step sys0 [evArm1, evUnmute, evRearm, evFire]).actions := by
  decide

/-! ## C6: AfkEnforcer disconnect contract -/

/-- System identical to `sys0` except the bot lacks the MoveMembers
permission in the AFK channel. -/
def sysNoPerm : Sys := ⟨stG, fun _ => vsIdle, [], [], "bot", false⟩

/-- C6 counterexample: member `m` (not the bot) transitions into the
configured AFK channel `afk`, but because the bot lacks the MoveMembers
permission the handler returns before `newState.disconnect()` and no
disconnect action is issued — refuting the claim that a disconnect is
issued on every such transition as a function of the new state and the
configuration alone. -/
theorem afk_disconnect_skipped_without_permission :
    (step sysNoPerm (.vsu "g" "m" ⟨some "afk", false, false⟩ 0)).actions = [] ∧
    getGuildConfigE sysNoPerm.store "g"
      = .ok (some ⟨some "S", some "afk", some "AFK", [], some "en_us", some 5⟩) ∧
    "m" ≠ sysNoPerm.botId := by
  refine ⟨rfl, rfl, ?_⟩
  decide

/-- C6 amended: when the stored configuration is readable and names an
AFK channel, the member's new channel is that AFK channel, the member is
not the bot itself, and the bot holds the MoveMembers permission, the
handler issues exactly one disconnect for the member and arms no timer;
the decision depends only on the new voice state, the guild configuration
and that permission bit. -/
theorem afk_disconnect_with_permission (sys : Sys) (g m : String) (vs : VState) (now : Nat)
    (cfg : GuildCfg) (afkId : String)
    (hread : getGuildConfigE sys.store g = .ok (some cfg))
    (hafk : jsTruthyStr cfg.afkChannelId = some afkId)
    (hch : vs.channelId = some afkId)
    (hbot : m ≠ sys.botId)
    (hperm : sys.canMoveMembers = true) :
    (step sys (.vsu g m vs now)).actions = sys.actions ++ [BotAct.disconnect m] ∧
    (step sys (.vsu g m vs now)).timers = sys.timers := by
  have hh : vsuHandler cfg sys.botId sys.canMoveMembers g m vs now
      = ([BotAct.disconnect m], none) := by
    unfold vsuHandler
    rw [hafk, hch]
    simp [hbot, hperm]
  simp only [step, hread, hh]
  simp

/-- Witness for `afk_disconnect_with_permission` on the concrete system. -/
theorem afk_disconnect_with_permission_witness :
    (step sys0 (.vsu "g" "m" ⟨some "afk", false, false⟩ 0)).actions
      = sys0.actions ++ [BotAct.disconnect "m"] ∧
    (step sys0 (.vsu "g" "m" ⟨some "afk", false, false⟩ 0)).timers = sys0.timers :=
  afk_disconnect_with_permission sys0 "g" "m" ⟨some "afk", false, false⟩ 0
    ⟨some "S", some "afk", some "AFK", [], some "en_us", some 5⟩ "afk"
    rfl rfl rfl (by decide) rfl


/-! ## Inversion lemmas for the merge upsert -/

/-- Componentwise inversion of a successful statement binding. -/
theorem bindMerged_inv (m : Merged) (b : Bound) (h : bindMerged m = .ok b) :
    bindStr m.serverName = .ok b.serverName ∧
    bindStr m.afkChannelId = .ok b.afkChannelId ∧
    bindStr m.afkChannelName = .ok b.afkChannelName ∧
    bindRoles m.allowedRoles = .ok b.allowedRoles ∧
    bindStr m.language = .ok b.language ∧
    bindNum m.afkTimeout = .ok b.afkTimeout := by
  unfold bindMerged at h
  cases h1 : bindStr m.serverName with
  | error e => rw [h1] at h; simp at h
  | ok a1 =>
  rw [h1] at h
  cases h2 : bindStr m.afkChannelId with
  | error e => rw [h2] at h; simp at h
  | ok a2 =>
  rw [h2] at h
  cases h3 : bindStr m.afkChannelName with
  | error e => rw [h3] at h; simp at h
  | ok a3 =>
  rw [h3] at h
  cases h4 : bindRoles m.allowedRoles with
  | error e => rw [h4] at h; simp at h
  | ok a4 =>
  rw [h4] at h
  cases h5 : bindStr m.language with
  | error e => rw [h5] at h; simp at h
  | ok a5 =>
  rw [h5] at h
  cases h6 : bindNum m.afkTimeout with
  | error e => rw [h6] at h; simp at h
  | ok a6 =>
  rw [h6] at h
  obtain ⟨b1, b2, b3, b4, b5, b6⟩ := b
  injection h with h'
  injection h' with e1 e2 e3 e4 e5 e6
  subst e1; subst e2; subst e3; subst e4; subst e5; subst e6
  exact ⟨rfl, rfl, rfl, rfl, rfl, rfl⟩

/-- Inversion of a successful `saveGuildConfig` call. -/
theorem saveOk_inv (st : Store) (g : String) (c : ConfigIn) (st' : Store)
    (h : saveGuildConfigE st g c = .ok st') :
    ∃ ex b, getGuildConfigE st g = .ok ex ∧ bindMerged (mergeCfg ex c) = .ok b ∧
      st' = upsertRow st g b := by
  unfold saveGuildConfigE at h
  cases hg : getGuildConfigE st g with
  | error e => rw [hg] at h; simp at h
  | ok ex =>
  rw [hg] at h
  have h2 : (match bindMerged (mergeCfg ex c) with
      | Except.error e => Except.error e
      | Except.ok b => Except.ok (upsertRow st g b)) = Except.ok st' := h
  cases hb : bindMerged (mergeCfg ex c) with
  | error e => rw [hb] at h2; simp at h2
  | ok b =>
  rw [hb] at h2
  injection h2 with h'
  exact ⟨ex, b, rfl, hb, h'.symm⟩

/-! ## C9: relocation delay and default timeout -/

/-- A fully specified setup configuration with the timeout omitted. -/
def cfgNoTimeout : ConfigIn := ⟨.str "S", .str "afk", .str "AFK", some [], .str "en_us", .undefN⟩

/-- The empty table. -/
def stEmpty : Store := fun _ => none

/-- The table produced by saving `cfgNoTimeout` for a fresh guild. -/
def stDefaulted : Store := runSave stEmpty "g" cfgNoTimeout

/-- C9: a timer armed for a member sitting muted and deafened in a
non-AFK channel carries the delay `afkTimeout * 60 * 1000` milliseconds,
with the timeout and target AFK channel read from the configuration at
arm time and captured in the timer (not re-read at fire time); and a
guild saved without an explicit timeout stores the positive default 5. -/
theorem relocation_delay_and_default (sys : Sys) (g m : String) (vs : VState) (now : Nat)
    (cfg : GuildCfg) (afkId ch : String) (n : Int) (st st' : Store) (c : ConfigIn)
    (hread : getGuildConfigE sys.store g = .ok (some cfg))
    (hafk : jsTruthyStr cfg.afkChannelId = some afkId)
    (hch : vs.channelId = some ch)
    (hne : ch ≠ afkId)
    (hmute : vs.selfMute = true)
    (hdeaf : vs.selfDeaf = true)
    (htm : cfg.afkTimeout = some n) :
    ((step sys (.vsu g m vs now)).timers
      = sys.timers ++ [⟨m, g, ch, afkId, n * 60 * 1000, now⟩]) ∧
    (c.afkTimeout = JSNum.undefN → st g = none → saveGuildConfigE st g c = .ok st' →
      ∃ r, st' g = some r ∧ r.afk_timeout = some 5 ∧ (0 : Int) < 5) := by
  constructor
  · have hh : vsuHandler cfg sys.botId sys.canMoveMembers g m vs now
        = ([], some ⟨m, g, ch, afkId, n * 60 * 1000, now⟩) := by
      simp [vsuHandler, hafk, hch, hne, hmute, hdeaf, htm]
    simp only [step, hread, hh]
  · intro hc hst hsave
    obtain ⟨ex, b, hg, hb, hst'⟩ := saveOk_inv st g c st' hsave
    have hexn : ex = none := by
      unfold getGuildConfigE at hg
      rw [hst] at hg
      injection hg with h'
      exact h'.symm
    subst hexn
    obtain ⟨-, -, -, -, -, h6⟩ := bindMerged_inv (mergeCfg none c) b hb
    have hmrg : (mergeCfg none c).afkTimeout = .numN 5 := by
      simp [mergeCfg, hc]
    rw [hmrg] at h6
    injection h6 with h6'
    refine ⟨⟨b.serverName, b.afkChannelId, b.afkChannelName,
             b.allowedRoles, b.language, b.afkTimeout⟩, ?_, ?_, by norm_num⟩
    · rw [hst']
      simp [upsertRow, hst]
    · rw [← h6']

/-- Witness for `relocation_delay_and_default`: arming on the concrete
system yields a 5-minute (300000 ms) timer, and the defaulted store holds
timeout 5. -/
theorem relocation_delay_and_default_witness :
    ((step sys0 (.vsu "g" "m" ⟨some "c1", true, true⟩ 0)).timers
      = sys0.timers ++ [⟨"m", "g", "c1", "afk", 5 * 60 * 1000, 0⟩]) ∧
    (∃ r, stDefaulted "g" = some r ∧ r.afk_timeout = some 5 ∧ (0 : Int) < 5) := by
  have h := relocation_delay_and_default sys0 "g" "m" ⟨some "c1", true, true⟩ 0
    ⟨some "S", some "afk", some "AFK", [], some "en_us", some 5⟩ "afk" "c1" 5
    stEmpty stDefaulted cfgNoTimeout
    rfl rfl rfl (by decide) rfl rfl rfl
  exact ⟨h.1, h.2 rfl rfl rfl⟩

/-! ## C7: authorization gating -/

/-- The role ids stored in a guild's `allowed_roles` column (decoded the
way a correct reader would). -/
def allowedRoleIdsOf (st : Store2) (g : String) : List String :=
  match st g with
  | none => []
  | some row =>
    match jsonParseRoles ((jsTruthyStr row.allowed_roles).getD "[]") with
    | some rs => rs.map (fun r => r.id)
    | none => []

/-- C7 amended: in the revision that implements `hasPermission`
(src/index.js second revision, commands `setup`/`afkinfo`), an actor who
is not a platform administrator — and in particular also holds none of
the stored allowed roles — is rejected with the no-permission reply
before any command dispatch, and the stored table is untouched. -/
theorem unauthorized_rejected_rev2 (st : Store2) (ctx : GuildCtx) (mem : Member) (cmd : Cmd2)
    (hadmin : mem.isAdmin = false)
    (_hroles : ∀ rid ∈ allowedRoleIdsOf st ctx.gid, mem.roleIds.contains rid = false) :
    (interactionRev2 st ctx mem cmd).fst = st ∧
    (interactionRev2 st ctx mem cmd).snd = Reply2.noPermission := by
  have hp : hasPermission st ctx.gid mem = false := by
    unfold hasPermission
    cases st ctx.gid with
    | none => rfl
    | some row =>
      simp [hadmin, rowAllowedRolesCamel, jsTruthyStr,
        show jsonParseRoles "[]" = some [] from rfl]
  unfold interactionRev2
  rw [hp]
  exact ⟨rfl, rfl⟩

/-- A stored configuration row for the gated revision. -/
def row2G : Row2 := ⟨some "S", some "afk", some "AFK", some "[]", some "en_us"⟩

/-- Store of the gated revision holding `row2G`. -/
def st2G : Store2 := fun g => if g = "g" then some row2G else none

/-- The interaction guild context used by the witness. -/
def ctxW : GuildCtx := ⟨"g", "S", [⟨"afk", "AFK Lounge", 2⟩], [⟨"r1", "Admin", true, false⟩]⟩

/-- An actor who is neither an administrator nor a holder of any allowed
role. -/
def memU : Member := ⟨"u", false, []⟩

/-- Witness for `unauthorized_rejected_rev2`: the unauthorized actor's
`setup` is rejected and the store is unchanged. -/
theorem unauthorized_rejected_rev2_witness :
    (interactionRev2 st2G ctxW memU (.setup "AFK Lounge" "Admin" "en_us")).fst "g" = st2G "g" ∧
    (interactionRev2 st2G ctxW memU (.setup "AFK Lounge" "Admin" "en_us")).snd
      = Reply2.noPermission := by
  have h := unauthorized_rejected_rev2 st2G ctxW memU (.setup "AFK Lounge" "Admin" "en_us")
    rfl (by decide)
  exact ⟨congrFun h.1 "g", h.2⟩

/-- Runs the first-revision `/afklimit` handler as a state transformer
(an exception leaves the table unchanged). -/
def runAfklimit (st : Store) (g : String) (mem : Member) (s : String) : Store :=
  match afklimitPart3 st g mem s with
  | .ok st' => st'
  | .error _ => st

/-- C7 counterexample: in the revision providing the per-field mutating
commands (part_003 first revision: `setup`/`setafk`/`setlang`/`afklimit`),
there is no authorization check at all — the actor `memU`, who is neither
an administrator nor in any allowed role, invokes `/afklimit 1` and the
stored timeout changes from 5 to 1: the command is not rejected and the
ConfigStore is written. -/
theorem ungated_afklimit_counterexample :
    memU.isAdmin = false ∧ memU.roleIds = [] ∧
    stG "g" = some rowG ∧ rowG.afk_timeout = some 5 ∧
    (runAfklimit stG "g" memU "1") "g"
      = some ⟨some "S", some "afk", some "AFK", some "[]", some "en_us", some 1⟩ := by
  refine ⟨rfl, rfl, rfl, rfl, ?_⟩
  decide

/-! ## C1: merge retention law -/

/-- SQL identity behind last-known-good retention: writing a column's own
current value through `COALESCE(NULLIF(v, ''), old)` leaves it unchanged. -/
theorem coalesce_nullif_self (x : Option String) : coalesce (nullifEmpty x) x = x := by
  cases x with
  | none => rfl
  | some s =>
    by_cases h : s = "" <;> simp [nullifEmpty, h, coalesce]

/-- The value read back from a nullable column binds back as itself. -/
theorem bindStr_jsvOfOpt (x : Option String) : bindStr (jsvOfOpt x) = .ok x := by
  cases x <;> rfl

/-- A successful read of `none` means no row was stored. -/
theorem getOk_none (st : Store) (g : String) (h : getGuildConfigE st g = .ok none) :
    st g = none := by
  cases hs : st g with
  | none => rfl
  | some row =>
    rw [getGuildConfigE_some st g row hs] at h
    cases ht : jsTruthyStr row.allowed_roles with
    | none => rw [ht] at h; simp at h
    | some s =>
      rw [ht] at h
      have h2 : (match jsonParseRoles s with
          | none => Except.error ()
          | some rs => Except.ok (some (⟨row.server_name, row.afk_channel_id,
              row.afk_channel_name, rs, row.language, row.afk_timeout⟩ : GuildCfg)))
          = Except.ok (none : Option GuildCfg) := h
      cases hp : jsonParseRoles s with
      | none => rw [hp] at h2; simp at h2
      | some rs => rw [hp] at h2; simp at h2

/-- A successful read copies the scalar columns of the stored row
verbatim into the returned record. -/
theorem getOk_some_fields (st : Store) (g : String) (row : Row) (e : GuildCfg)
    (hrow : st g = some row) (h : getGuildConfigE st g = .ok (some e)) :
    e.serverName = row.server_name ∧ e.afkChannelId = row.afk_channel_id ∧
    e.afkChannelName = row.afk_channel_name ∧ e.language = row.language ∧
    e.afkTimeout = row.afk_timeout := by
  rw [getGuildConfigE_some st g row hrow] at h
  cases ht : jsTruthyStr row.allowed_roles with
  | none =>
    rw [ht] at h
    injection h with h1
    injection h1 with h2
    rw [← h2]
    exact ⟨rfl, rfl, rfl, rfl, rfl⟩
  | some s =>
    rw [ht] at h
    have hred : (match jsonParseRoles s with
        | none => Except.error ()
        | some rs => Except.ok (some (⟨row.server_name, row.afk_channel_id,
            row.afk_channel_name, rs, row.language, row.afk_timeout⟩ : GuildCfg)))
        = Except.ok (some e) := h
    cases hp : jsonParseRoles s with
    | none => rw [hp] at hred; simp at hred
    | some rs =>
      rw [hp] at hred
      injection hred with h1
      injection h1 with h2
      rw [← h2]
      exact ⟨rfl, rfl, rfl, rfl, rfl⟩

/-- The merged language slot is always a non-empty string (the trailing
`|| "en_us"` default). -/
theorem lang_merged_nonempty (a b : JSv) :
    ∃ s, jsOrV a (jsOrV b (.str "en_us")) = .str s ∧ s ≠ "" := by
  unfold jsOrV
  by_cases ha : truthyV a = true
  · rw [if_pos ha]
    cases a with
    | str s => exact ⟨s, rfl, by simpa [truthyV] using ha⟩
    | undef => simp [truthyV] at ha
    | nullv => simp [truthyV] at ha
  · rw [if_neg ha]
    by_cases hb : truthyV b = true
    · rw [if_pos hb]
      cases b with
      | str s => exact ⟨s, rfl, by simpa [truthyV] using hb⟩
      | undef => simp [truthyV] at hb
      | nullv => simp [truthyV] at hb
    · rw [if_neg hb]
      exact ⟨"en_us", rfl, by decide⟩

/-- Every successful `saveGuildConfig` leaves a row for the guild whose
`language` column is a non-empty string. -/
theorem saveOk_language (st : Store) (g : String) (c : ConfigIn) (st' : Store)
    (h : saveGuildConfigE st g c = .ok st') :
    ∃ row s, st' g = some row ∧ row.language = some s ∧ s ≠ "" := by
  obtain ⟨ex, b, hg, hb, hst'⟩ := saveOk_inv st g c st' h
  obtain ⟨-, -, -, -, h5, -⟩ := bindMerged_inv _ _ hb
  have hm : ∃ exL, (mergeCfg ex c).language = jsOrV c.language (jsOrV exL (.str "en_us")) := by
    cases ex with
    | none => exact ⟨.undef, rfl⟩
    | some e => exact ⟨jsvOfOpt e.language, rfl⟩
  obtain ⟨exL, hm⟩ := hm
  obtain ⟨s, hs, hne⟩ := lang_merged_nonempty c.language exL
  rw [hm, hs] at h5
  have hbl : b.language = some s := by
    injection h5 with h5'
    exact h5'.symm
  subst hst'
  cases hold : st g with
  | none =>
    refine ⟨⟨b.serverName, b.afkChannelId, b.afkChannelName,
             b.allowedRoles, b.language, b.afkTimeout⟩, s, ?_, hbl, hne⟩
    simp [upsertRow, hold]
  | some old =>
    refine ⟨updateRow old b, s, ?_, ?_, hne⟩
    · simp [upsertRow, hold]
    · show coalesce (nullifEmpty b.language) old.language = some s
      rw [hbl]
      simp [nullifEmpty, hne, coalesce]

/-- C1 amended: after a successful upsert of `p1`, a second upsert of
`p2` leaves every field that `p2` omits (leaves `undefined`) at its
post-`p1` stored value — provided that for the `afkTimeout` field the
stored value is a nonzero integer.  (The exception is forced by
`existingConfig.afkTimeout || 5`, which treats a stored `0` or `NULL`
timeout as unset and resets it to the default 5; and when `p2` omits
`allowedRoles` the whole statement throws — the driver cannot bind the
parsed array or `undefined` — leaving every column unchanged.) -/
theorem merge_retention (st st1 : Store) (g : String) (p1 p2 : ConfigIn) (f : CField)
    (h1 : saveGuildConfigE st g p1 = .ok st1)
    (habs : fieldAbsent p2 f = true)
    (htz : f = CField.afkTimeout → ∀ row, st1 g = some row →
      ∃ k, row.afk_timeout = some k ∧ k ≠ 0) :
    cellAt (runSave st1 g p2) g f = cellAt st1 g f := by
  obtain ⟨rowL, sL, hrowL, hlangL, hneL⟩ := saveOk_language st g p1 st1 h1
  unfold runSave
  cases h2 : saveGuildConfigE st1 g p2 with
  | error e => rfl
  | ok st2 =>
    obtain ⟨ex2, b2, hg2, hb2, hst2⟩ := saveOk_inv st1 g p2 st2 h2
    cases ex2 with
    | none =>
      have hnone := getOk_none st1 g hg2
      rw [hrowL] at hnone
      exact absurd hnone (by simp)
    | some e2 =>
      obtain ⟨hesn, heaci, heacn, helang, hetm⟩ := getOk_some_fields st1 g rowL e2 hrowL hg2
      obtain ⟨hbsn, hbaci, hbacn, hbroles, hblang, hbtm⟩ := bindMerged_inv _ _ hb2
      subst hst2
      have hup : upsertRow st1 g b2 g = some (updateRow rowL b2) := by
        simp [upsertRow, hrowL]
      cases f with
      | serverName =>
        have hp : p2.serverName = .undef := by simpa [fieldAbsent] using habs
        have hm : (mergeCfg (some e2) p2).serverName = jsvOfOpt e2.serverName := by
          simp [mergeCfg, hp, jsOrV, truthyV]
        rw [hm, hesn, bindStr_jsvOfOpt] at hbsn
        have hb' : b2.serverName = rowL.server_name := by
          injection hbsn with h'
          exact h'.symm
        simp [cellAt, hup, hrowL, updateRow, rowCell, hb', coalesce_nullif_self]
      | afkChannelId =>
        have hp : p2.afkChannelId = .undef := by simpa [fieldAbsent] using habs
        have hm : (mergeCfg (some e2) p2).afkChannelId = jsvOfOpt e2.afkChannelId := by
          simp [mergeCfg, hp, jsOrV, truthyV]
        rw [hm, heaci, bindStr_jsvOfOpt] at hbaci
        have hb' : b2.afkChannelId = rowL.afk_channel_id := by
          injection hbaci with h'
          exact h'.symm
        simp [cellAt, hup, hrowL, updateRow, rowCell, hb', coalesce_nullif_self]
      | afkChannelName =>
        have hp : p2.afkChannelName = .undef := by simpa [fieldAbsent] using habs
        have hm : (mergeCfg (some e2) p2).afkChannelName = jsvOfOpt e2.afkChannelName := by
          simp [mergeCfg, hp, jsOrV, truthyV]
        rw [hm, heacn, bindStr_jsvOfOpt] at hbacn
        have hb' : b2.afkChannelName = rowL.afk_channel_name := by
          injection hbacn with h'
          exact h'.symm
        simp [cellAt, hup, hrowL, updateRow, rowCell, hb', coalesce_nullif_self]
      | allowedRoles =>
        have hp : p2.allowedRoles = none := by simpa [fieldAbsent] using habs
        have herr : bindRoles (mergeCfg (some e2) p2).allowedRoles = .error () := by
          simp [mergeCfg, hp, bindRoles]
        rw [herr] at hbroles
        exact absurd hbroles (by simp)
      | language =>
        have hp : p2.language = .undef := by simpa [fieldAbsent] using habs
        have hml : (mergeCfg (some e2) p2).language = .str sL := by
          show jsOrV p2.language (jsOrV (jsvOfOpt e2.language) (.str "en_us")) = .str sL
          rw [hp, helang, hlangL]
          simp [jsOrV, truthyV, hneL, jsvOfOpt]
        rw [hml] at hblang
        have hb' : b2.language = some sL := by
          injection hblang with h'
          exact h'.symm
        simp [cellAt, hup, hrowL, updateRow, rowCell, hb', nullifEmpty, hneL, coalesce, hlangL]
      | afkTimeout =>
        have hp : p2.afkTimeout = .undefN := by simpa [fieldAbsent] using habs
        obtain ⟨k, hktm, hk0⟩ := htz rfl rowL hrowL
        have hml : (mergeCfg (some e2) p2).afkTimeout = .numN k := by
          simp [mergeCfg, hp, hetm, hktm, hk0]
        rw [hml] at hbtm
        have hb' : b2.afkTimeout = some k := by
          injection hbtm with h'
          exact h'.symm
        simp [cellAt, hup, hrowL, updateRow, rowCell, hb', coalesce, hktm]

/-- First update: a full setup that explicitly stores timeout 0. -/
def p1Zero : ConfigIn := ⟨.str "S", .str "afk", .str "AFK", some [], .str "en_us", .numN 0⟩

/-- Second update: provides only `allowedRoles` (so the statement binds)
and omits every other field, in particular `afkTimeout`. -/
def p2Omit : ConfigIn := ⟨.undef, .undef, .undef, some [], .undef, .undefN⟩

/-- Table after upserting `p1Zero` for a fresh guild. -/
def stA : Store := runSave stEmpty "g" p1Zero

/-- Table after additionally upserting `p2Omit`. -/
def stB : Store := runSave stA "g" p2Omit

/-- C1 counterexample: `p1` stores `afk_timeout = 0`; `p2` omits the
field, yet after both upserts the column holds 5, not the value `p1` gave
it — `existingConfig.afkTimeout || 5` treats the stored 0 as unset, so
the unrestricted merge retention law fails on the code. -/
theorem merge_retention_counterexample :
    fieldAbsent p2Omit CField.afkTimeout = true ∧
    cellAt stA "g" CField.afkTimeout = some (.intC 0) ∧
    cellAt stB "g" CField.afkTimeout = some (.intC 5) := by
  exact ⟨rfl, rfl, rfl⟩

/-- Witness for `merge_retention`: the omitted `serverName` of `p2Omit`
is retained across the second upsert. -/
theorem merge_retention_witness :
    cellAt (runSave stA "g" p2Omit) "g" CField.serverName
      = cellAt stA "g" CField.serverName :=
  merge_retention stEmpty stA "g" p1Zero p2Omit CField.serverName rfl rfl
    (fun h => absurd h (by decide))

/-! ## C10: non-clearability of configured fields -/

/-- The four plain string columns of a guild row. -/
inductive SField where
  | serverName | afkChannelId | afkChannelName | language
deriving DecidableEq, Repr

/-- Projection of a row onto one of the string columns. -/
def sCol (r : Row) : SField → Option String
  | .serverName => r.server_name
  | .afkChannelId => r.afk_channel_id
  | .afkChannelName => r.afk_channel_name
  | .language => r.language

/-- The string-column value stored for a guild (`none` when no row). -/
def sCellAt (st : Store) (g : String) (f : SField) : Option (Option String) :=
  (st g).map (fun r => sCol r f)

/-- First update storing a non-empty role list. -/
def p1Roles : ConfigIn := ⟨.str "S", .str "afk", .str "AFK", some [⟨"r1", "Mods"⟩], .str "en_us", .numN 5⟩

/-- Table after upserting `p1Roles` for a fresh guild. -/
def stC : Store := runSave stEmpty "g" p1Roles

/-- Table after additionally upserting `p2Omit`, whose `allowedRoles` is
an explicitly empty array. -/
def stD : Store := runSave stC "g" p2Omit

/-- C10 counterexample: the stored role collection is non-empty after
`p1Roles`, and the partial update `p2Omit` — whose `allowedRoles` is the
explicitly empty array `[]`, a truthy JavaScript value — clears it back
to the empty collection, refuting the claim that every configured field
(allowedRoles included) can never be cleared. -/
theorem roles_cleared_counterexample :
    getGuildConfigE stC "g"
      = .ok (some ⟨some "S", some "afk", some "AFK", [⟨"r1", "Mods"⟩], some "en_us", some 5⟩) ∧
    getGuildConfigE stD "g"
      = .ok (some ⟨some "S", some "afk", some "AFK", [], some "en_us", some 5⟩) := by
  exact ⟨rfl, rfl⟩

/-- A bound value written through `COALESCE(NULLIF(v, ''), old)` can
replace a non-empty column only with another non-empty value. -/
theorem coalesce_keeps_nonempty (bv : Option String) (s : String) (hs : s ≠ "") :
    ∃ t, coalesce (nullifEmpty bv) (some s) = some t ∧ t ≠ "" := by
  cases bv with
  | none => exact ⟨s, rfl, hs⟩
  | some u =>
    by_cases h : u = ""
    · exact ⟨s, by simp [nullifEmpty, h, coalesce], hs⟩
    · exact ⟨u, by simp [nullifEmpty, h, coalesce], h⟩

/-- C10 amended: once one of the four string columns (`serverName`,
`afkChannelId`, `afkChannelName`, `language`) holds a non-empty value, no
`saveGuildConfig` call with any partial update can clear it back to
absent or empty — it can only be replaced by another non-empty value, so
in particular the AFK feature cannot be disabled once the AFK channel is
set.  (`allowedRoles` is excluded: an explicitly empty array is truthy
and overwrites the stored list.) -/
theorem string_fields_never_cleared (st : Store) (g : String) (c : ConfigIn)
    (f : SField) (s : String)
    (h : sCellAt st g f = some (some s)) (hs : s ≠ "") :
    ∃ t, sCellAt (runSave st g c) g f = some (some t) ∧ t ≠ "" := by
  have hrow : ∃ row, st g = some row ∧ sCol row f = some s := by
    unfold sCellAt at h
    cases hst : st g with
    | none => rw [hst] at h; simp at h
    | some row =>
      rw [hst] at h
      simp at h
      exact ⟨row, rfl, h⟩
  obtain ⟨row, hst, hcol⟩ := hrow
  unfold runSave
  cases h2 : saveGuildConfigE st g c with
  | error e => exact ⟨s, h, hs⟩
  | ok st2 =>
    obtain ⟨ex, b, hg, hb, hst2⟩ := saveOk_inv st g c st2 h2
    subst hst2
    have hup : upsertRow st g b g = some (updateRow row b) := by
      simp [upsertRow, hst]
    cases f with
    | serverName =>
      obtain ⟨t, hco, ht⟩ := coalesce_keeps_nonempty b.serverName s hs
      refine ⟨t, ?_, ht⟩
      show (upsertRow st g b g).map (fun r => sCol r SField.serverName) = some (some t)
      rw [hup]
      show some (coalesce (nullifEmpty b.serverName) row.server_name) = some (some t)
      rw [show row.server_name = some s from hcol, hco]
    | afkChannelId =>
      obtain ⟨t, hco, ht⟩ := coalesce_keeps_nonempty b.afkChannelId s hs
      refine ⟨t, ?_, ht⟩
      show (upsertRow st g b g).map (fun r => sCol r SField.afkChannelId) = some (some t)
      rw [hup]
      show some (coalesce (nullifEmpty b.afkChannelId) row.afk_channel_id) = some (some t)
      rw [show row.afk_channel_id = some s from hcol, hco]
    | afkChannelName =>
      obtain ⟨t, hco, ht⟩ := coalesce_keeps_nonempty b.afkChannelName s hs
      refine ⟨t, ?_, ht⟩
      show (upsertRow st g b g).map (fun r => sCol r SField.afkChannelName) = some (some t)
      rw [hup]
      show some (coalesce (nullifEmpty b.afkChannelName) row.afk_channel_name) = some (some t)
      rw [show row.afk_channel_name = some s from hcol, hco]
    | language =>
      obtain ⟨t, hco, ht⟩ := coalesce_keeps_nonempty b.language s hs
      refine ⟨t, ?_, ht⟩
      show (upsertRow st g b g).map (fun r => sCol r SField.language) = some (some t)
      rw [hup]
      show some (coalesce (nullifEmpty b.language) row.language) = some (some t)
      rw [show row.language = some s from hcol, hco]

/-- Witness for `string_fields_never_cleared`: the AFK channel id of the
configured store survives the `p2Omit` upsert as a non-empty value. -/
theorem string_fields_never_cleared_witness :
    ∃ t, sCellAt (runSave stC "g" p2Omit) "g" SField.afkChannelId = some (some t) ∧ t ≠ "" :=
  string_fields_never_cleared stC "g" p2Omit SField.afkChannelId "afk" rfl (by decide)
